import Mathlib

set_option maxRecDepth 8000
set_option maxHeartbeats 1600000

/-!
Verification of the data-reconciliation and metrics engine of the M-Ajira
call-center dashboard (src/app.py).  The Python dataframes are embedded as
ordered association lists of named columns of cells; the canonical record
sets are embedded as lists of Lean structures, and every metric of the
source is re-implemented as an executable Lean function mirroring the
corresponding pandas expression.
-/

/-- A parsed timestamp (surrogate for a pandas Timestamp). -/
structure TS where
  year : Nat
  month : Nat
  day : Nat
  hour : Nat
  minute : Nat
  second : Nat
deriving DecidableEq, Repr

/-- A calendar date, as produced by the `.dt.date` accessor. -/
structure CalDate where
  year : Nat
  month : Nat
  day : Nat
deriving DecidableEq, Repr

/-- Date part of a timestamp. -/
def TS.toDate (t : TS) : CalDate := ⟨t.year, t.month, t.day⟩

/-- Number of days of a month (Gregorian rules), used to validate dates. -/
def daysInMonth (y m : Nat) : Nat :=
  if m = 2 then (if (y % 4 = 0 ∧ y % 100 ≠ 0) ∨ y % 400 = 0 then 29 else 28)
  else if m = 4 ∨ m = 6 ∨ m = 9 ∨ m = 11 then 30 else 31

/-- Build a date from day/month/year components if they are valid. -/
def mkValidDate (d m y : Nat) : Option CalDate :=
  if 1 ≤ m ∧ m ≤ 12 ∧ 1 ≤ d ∧ d ≤ daysInMonth y m ∧ 1000 ≤ y then some ⟨y, m, d⟩
  else none

/-- Resolution of a slash-separated date token, modelling the pandas
to_datetime component order: with dayfirst the first component is preferred
as the day, falling back to month-first when that reading is invalid, and
symmetrically with dayfirst off. -/
def parseSlashDate (dayfirst : Bool) (s : String) : Option CalDate :=
  match s.splitOn "/" with
  | [a, b, c] =>
    match a.toNat?, b.toNat?, c.toNat? with
    | some x, some y, some z =>
      if dayfirst then (mkValidDate x y z).orElse (fun _ => mkValidDate y x z)
      else (mkValidDate y x z).orElse (fun _ => mkValidDate x y z)
    | _, _, _ => none
  | _ => none

/-- Parse a colon-separated time-of-day token. -/
def parseTimeToken (s : String) : Option (Nat × Nat × Nat) :=
  match s.splitOn ":" with
  | [h, m] =>
    match h.toNat?, m.toNat? with
    | some hv, some mv => if hv ≤ 23 ∧ mv ≤ 59 then some (hv, mv, 0) else none
    | _, _ => none
  | [h, m, sec] =>
    match h.toNat?, m.toNat?, sec.toNat? with
    | some hv, some mv, some sv =>
      if hv ≤ 23 ∧ mv ≤ 59 ∧ sv ≤ 59 then some (hv, mv, sv) else none
    | _, _, _ => none
  | _ => none

/-- Model of pd.to_datetime(·, errors=coerce) on one cell for the slash date
formats of the sheets: an unparsable value becomes none (NaT). -/
def parsePandasTS (dayfirst : Bool) (s : String) : Option TS :=
  match (s.trim.splitOn " ").filter (fun t => t ≠ "") with
  | [d] => (parseSlashDate dayfirst d).map (fun dd => ⟨dd.year, dd.month, dd.day, 0, 0, 0⟩)
  | [d, t] =>
    match parseSlashDate dayfirst d, parseTimeToken t with
    | some dd, some (h, m, sec) => some ⟨dd.year, dd.month, dd.day, h, m, sec⟩
    | _, _ => none
  | _ => none

/-- Day-first timestamp parsing, as used on Agent Logs. -/
def parseDayFirstTS : String → Option TS := parsePandasTS true

/-- Default (month-first preference) timestamp parsing, as used on System Logs. -/
def parseMonthFirstTS : String → Option TS := parsePandasTS false

/-- Floor of a rational as an integer. -/
def ratFloor (x : ℚ) : ℤ := Int.fdiv x.num x.den

/-- Round to the nearest integer with ties to even, the rounding rule of
Python round and numpy/pandas round. -/
def roundHalfEven (x : ℚ) : ℤ :=
  let f := ratFloor x
  let r := x - (f : ℚ)
  if r < 1/2 then f else if 1/2 < r then f + 1 else if f % 2 = 0 then f else f + 1

/-- Round a rational to one decimal place, ties to even. -/
def round1 (x : ℚ) : ℚ := (roundHalfEven (10 * x) : ℚ) / 10

/-- One dataframe cell after loading: raw strings, parsed timestamps,
derived dates and derived hour numbers (none encodes NaN/NaT). -/
inductive Cell where
  | str (v : String)
  | ts (v : Option TS)
  | date (v : Option CalDate)
  | nat (v : Option Nat)
deriving DecidableEq, Repr

/-- A dataframe: an ordered list of named columns. -/
abbrev Frame := List (String × List Cell)

/-- Column labels of a frame, in order. -/
def colNames (f : Frame) : List String := f.map Prod.fst

/-- Column access df[n] (first column with the given label). -/
def getCol : Frame → String → Option (List Cell)
  | [], _ => none
  | p :: t, n => if p.1 = n then some p.2 else getCol t n

/-- Column assignment df[n] = v: replaces the column in place if the label
exists, otherwise appends a new column at the end. -/
def setCol (f : Frame) (n : String) (v : List Cell) : Frame :=
  if n ∈ colNames f then f.map (fun p => if p.1 = n then (n, v) else p)
  else f ++ [(n, v)]

/-- Number of rows of a (rectangular) frame. -/
def nrows (f : Frame) : Nat :=
  match f with
  | [] => 0
  | c :: _ => c.2.length

/-- Cell of column n at row i. -/
def getCell (f : Frame) (n : String) (i : Nat) : Option Cell :=
  match getCol f n with
  | some col => col[i]?
  | none => none

/-- String content of a cell lookup, with empty default. -/
def cellStrAt (f : Frame) (n : String) (i : Nat) : String :=
  match getCell f n i with
  | some (.str v) => v
  | _ => ""

/-- Timestamp content of a cell lookup (none for NaT or non-timestamp). -/
def cellTSAt (f : Frame) (n : String) (i : Nat) : Option TS :=
  match getCell f n i with
  | some (.ts v) => v
  | _ => none

/-- pd.DataFrame(rows[1:], columns=[h.strip() for h in rows[0]]). -/
def buildFrame (rows : List (List String)) : Frame :=
  (rows.headI.map String.trim).enum.map
    (fun p => (p.2, rows.tail.map (fun r => Cell.str (r.getD p.1 ""))))

/-- Stripped header row of a raw sheet. -/
def trimmedHeader (rows : List (List String)) : List String :=
  rows.headI.map String.trim

/-- pd.to_datetime on one cell: strings are parsed, already-parsed
timestamps pass through unchanged. -/
def toDatetimeCell (dayfirst : Bool) (c : Cell) : Cell :=
  match c with
  | .str v => .ts (parsePandasTS dayfirst v)
  | .ts v => .ts v
  | .date v => .ts (v.map (fun d => ⟨d.year, d.month, d.day, 0, 0, 0⟩))
  | .nat _ => .ts none

/-- Timestamp stored in a cell (none when the cell is not a timestamp). -/
def cellTS (c : Cell) : Option TS :=
  match c with
  | .ts v => v
  | _ => none

/-- The `.dt.date` derivation of one timestamp cell. -/
def dateCellOf (c : Cell) : Cell := .date ((cellTS c).map TS.toDate)

/-- The `.dt.hour` derivation of one timestamp cell. -/
def hourCellOf (c : Cell) : Cell := .nat ((cellTS c).map TS.hour)

/-- The column_defaults table of load_agent_logs, in dict insertion order.
The Category default is read from the current Disposition column when that
column is present, else it is the literal General Inquiry; no entry of the
table ever creates a Disposition column. -/
def agentDefaults (f : Frame) : List (String × List Cell) :=
  [("Call Status", List.replicate (nrows f) (.str "Answered")),
   ("Category",
     match getCol f "Disposition" with
     | some col => col
     | none => List.replicate (nrows f) (.str "General Inquiry")),
   ("Specific Reason", List.replicate (nrows f) (.str "N/A")),
   ("Lead Status", List.replicate (nrows f) (.str "Inquiry Only")),
   ("Skill", List.replicate (nrows f) (.str "N/A")),
   ("County", List.replicate (nrows f) (.str "N/A")),
   ("Source", List.replicate (nrows f) (.str "Unknown")),
   ("Agent Name", List.replicate (nrows f) (.str "Unknown"))]

/-- The for col, default loop of load_agent_logs: a column is added only
when its label is absent. -/
def applyDefaults (ds : List (String × List Cell)) (f : Frame) : Frame :=
  ds.foldl (fun acc d => if d.1 ∈ colNames acc then acc else acc ++ [d]) f

/-- Lines 100-118 of load_agent_logs: parse Timestamp day-first, derive the
Date and Hour columns, then apply the backward-compatibility defaults. -/
def normalizeAgentFrame (f : Frame) : Frame :=
  let f1 := setCol f "Timestamp" (((getCol f "Timestamp").getD []).map (toDatetimeCell true))
  let tcol := (getCol f1 "Timestamp").getD []
  let f2 := setCol f1 "Date" (tcol.map dateCellOf)
  let f3 := setCol f2 "Hour" (tcol.map hourCellOf)
  applyDefaults (agentDefaults f3) f3

/-- The parsed Timestamp column of a frame (day-first). -/
def parsedTScol (f : Frame) : List Cell :=
  ((getCol f "Timestamp").getD []).map (toDatetimeCell true)

/-- The frame after the Timestamp parse and the Date/Hour derivations,
before the defaults loop; normalizeAgentFrame is proved equal to
applyDefaults over this core. -/
def agentFrameCore (f : Frame) : Frame :=
  setCol (setCol (setCol f "Timestamp" (parsedTScol f)) "Date"
    ((parsedTScol f).map dateCellOf)) "Hour" ((parsedTScol f).map hourCellOf)

/-- The empty canonical Agent Log frame returned when at most a header row
is present. -/
def emptyAgentFrame : Frame :=
  [("Timestamp", []), ("Date", []), ("Phone", []), ("Lead Status", []),
   ("Source", []), ("Category", []), ("Skill", []), ("County", []),
   ("Hour", []), ("Agent Name", [])]

/-- load_agent_logs on the raw cell rows of Sheet1.  A raw sheet whose
header lacks Timestamp makes the df Timestamp access raise, which
propagates out of the loader, hence the error result. -/
def load_agent_logs (rows : List (List String)) : Except String Frame :=
  if rows.length ≤ 1 then .ok emptyAgentFrame
  else if "Timestamp" ∈ trimmedHeader rows then
    .ok (normalizeAgentFrame (buildFrame rows))
  else .error "KeyError: Timestamp"

/-- load_system_logs body on raw rows: default (month-first) timestamp
parsing plus the Date derivation; any internal failure is caught and
yields the empty frame. -/
def load_system_logs_rows (rows : List (List String)) : Frame :=
  if rows.length ≤ 1 then []
  else if "Timestamp" ∈ trimmedHeader rows then
    let f := buildFrame rows
    let f1 := setCol f "Timestamp" (((getCol f "Timestamp").getD []).map (toDatetimeCell false))
    setCol f1 "Date" (((getCol f1 "Timestamp").getD []).map dateCellOf)
  else []

/-- The external spreadsheet workbook: connection outcome, the mandatory
first worksheet, and the named optional worksheets, each a fetch that can
fail. -/
structure Workbook where
  conn : Except String Unit
  sheet1 : Except String (List (List String))
  worksheet : String → Except String (List (List String))

/-- load_system_logs: a missing or unreadable System_Logs worksheet is
swallowed and becomes an empty frame. -/
def load_system_logs (wb : Workbook) : Frame :=
  match wb.worksheet "System_Logs" with
  | .ok rows => load_system_logs_rows rows
  | .error _ => []

/-- A canonical recovery-queue entry. -/
structure QueueEntry where
  phone : String
  status : String
  assignedAgent : String
  queueOrigin : String
deriving DecidableEq, Repr

/-- Entries contributed by one recovery-queue worksheet: rows tagged with
their queue origin; a missing sheet or a header-only sheet contributes
nothing. -/
def queueSheetEntries (wb : Workbook) (qname : String) : List QueueEntry :=
  match wb.worksheet qname with
  | .ok rows =>
    if 1 < rows.length then
      let f := buildFrame rows
      (List.range (nrows f)).map (fun i =>
        { phone := cellStrAt f "Phone" i, status := cellStrAt f "Status" i,
          assignedAgent := cellStrAt f "Assigned Agent" i, queueOrigin := qname })
    else []
  | .error _ => []

/-- load_recovery_queues: union of both queue sheets, in fetch order. -/
def load_recovery_queues (wb : Workbook) : List QueueEntry :=
  queueSheetEntries wb "Queue_MAjira" ++ queueSheetEntries wb "Queue_General"

/-- Result of the master loader: the error reported for the cycle (if any)
and the three record sets. -/
structure LoadResult where
  errorMsg : Option String
  agents : Frame
  system : Frame
  queues : List QueueEntry

/-- load_all_data: a connection failure or a failure of the mandatory
Agent Log load is reported and every record set degrades to empty; the
optional sources never fail the cycle. -/
def load_all_data (wb : Workbook) : LoadResult :=
  match wb.conn with
  | .error e => ⟨some e, [], [], []⟩
  | .ok _ =>
    match wb.sheet1 with
    | .error e => ⟨some e, [], [], []⟩
    | .ok rows =>
      match load_agent_logs rows with
      | .error e => ⟨some e, [], [], []⟩
      | .ok af => ⟨none, af, load_system_logs wb, load_recovery_queues wb⟩

/-- A canonical Agent Log record. -/
structure AgentRec where
  timestamp : Option TS
  phone : String
  leadStatus : String
  source : String
  category : String
  specificReason : String
  skill : String
  county : String
  agentName : String
  callStatus : String
deriving DecidableEq, Repr

/-- Records read off a canonical Agent Log frame. -/
def agentRecordsOf (f : Frame) : List AgentRec :=
  (List.range (nrows f)).map (fun i =>
    { timestamp := cellTSAt f "Timestamp" i,
      phone := cellStrAt f "Phone" i,
      leadStatus := cellStrAt f "Lead Status" i,
      source := cellStrAt f "Source" i,
      category := cellStrAt f "Category" i,
      specificReason := cellStrAt f "Specific Reason" i,
      skill := cellStrAt f "Skill" i,
      county := cellStrAt f "County" i,
      agentName := cellStrAt f "Agent Name" i,
      callStatus := cellStrAt f "Call Status" i })

/-- A canonical System Log record. -/
structure SystemRec where
  timestamp : Option TS
  callStatus : String
deriving DecidableEq, Repr

/-- Records read off a System Log frame. -/
def systemRecordsOf (f : Frame) : List SystemRec :=
  (List.range (nrows f)).map (fun i =>
    { timestamp := cellTSAt f "Timestamp" i, callStatus := cellStrAt f "Call Status" i })

/-- The interested_statuses list of the source. -/
def interested_statuses : List String :=
  ["Interested", "Registered", "Registered (Paid Activation)"]

/-- total_calls = len(df_agents). -/
def total_calls (logs : List AgentRec) : Nat := logs.length

/-- interested_count = len(df_agents[df_agents[Lead Status].isin(interested_statuses)]). -/
def interested_count (logs : List AgentRec) : Nat :=
  (logs.filter (fun r => interested_statuses.contains r.leadStatus)).length

/-- The Interested Candidates delta: round(interested/total*100, 1) with a
zero guard on an empty record set. -/
def interested_rate (logs : List AgentRec) : ℚ :=
  if 0 < total_calls logs then
    round1 ((interested_count logs : ℚ) / (total_calls logs : ℚ) * 100)
  else 0

/-- Occurrences of one value in a column, Series.value_counts for one key. -/
def valCount (vs : List String) (v : String) : Nat := vs.count v

/-- The highest occurrence count over a column. -/
def maxValCount (vs : List String) : Nat :=
  ((vs.dedup).map (fun v => valCount vs v)).foldr max 0

/-- All values attaining the highest count, Series.mode content. -/
def modeCandidates (vs : List String) : List String :=
  (vs.dedup).filter (fun v => valCount vs v == maxValCount vs)

/-- Series.mode()[0]: pandas sorts the modal values ascending before
indexing, so the smallest modal value is returned. -/
def seriesModeHead (vs : List String) : String :=
  match modeCandidates vs with
  | [] => "N/A"
  | h :: t => t.foldl min h

/-- top_source = df[Source].mode()[0] if not df.empty else N/A. -/
def top_source (logs : List AgentRec) : String :=
  if logs.isEmpty then "N/A" else seriesModeHead (logs.map (fun r => r.source))

/-- top_skill = df[Skill].mode()[0] if not df.empty else N/A. -/
def top_skill (logs : List AgentRec) : String :=
  if logs.isEmpty then "N/A" else seriesModeHead (logs.map (fun r => r.skill))

/-- A leaderboard row of render_talent_operations. -/
structure LBEntry where
  agentName : String
  totalCalls : Nat
  successCount : Nat
  conversionRate : ℚ
deriving DecidableEq, Repr

/-- groupby(Agent Name) key order: the distinct agent names sorted
ascending (pandas groupby sorts its keys). -/
def agent_names (logs : List AgentRec) : List String :=
  List.insertionSort (fun a b : String => a ≤ b) ((logs.map (fun r => r.agentName)).dedup)

/-- One agent's leaderboard row: Total_Calls = the (Timestamp, count)
aggregation, which counts only non-null timestamps in the group;
Successful_Reg = the group size within the interested-filtered frame;
Conversion_Rate = round(success/total*100, 1). -/
def mkEntry (logs : List AgentRec) (a : String) : LBEntry :=
  let tc := (logs.filter (fun r => decide (r.agentName = a ∧ r.timestamp ≠ none))).length
  let sc := ((logs.filter (fun r => interested_statuses.contains r.leadStatus)).filter
      (fun r => r.agentName == a)).length
  ⟨a, tc, sc, round1 ((sc : ℚ) / (tc : ℚ) * 100)⟩

/-- The agent_stats table, one row per group key in groupby key order. -/
def agent_entries (logs : List AgentRec) : List LBEntry :=
  (agent_names logs).map (mkEntry logs)

/-- The ordering of sort_values(by=[Successful_Reg, Conversion_Rate],
ascending=False) on the alphabetically keyed agent_stats table: since the
multi-key pandas sort is stable and its input rows carry pairwise distinct
names in ascending order, the resulting order is exactly this total
preorder, descending on the key pair with ascending names on full ties. -/
def entryLe (a b : LBEntry) : Prop :=
  b.successCount < a.successCount ∨
  (a.successCount = b.successCount ∧ b.conversionRate < a.conversionRate) ∨
  (a.successCount = b.successCount ∧ a.conversionRate = b.conversionRate ∧
    a.agentName ≤ b.agentName)

instance : DecidableRel entryLe := fun a b => by
  unfold entryLe
  infer_instance

/-- The sorted leaderboard table. -/
def leaderboard (logs : List AgentRec) : List LBEntry :=
  List.insertionSort entryLe (agent_entries logs)

/-- The displayed leaderboard with its 1-based rank index
(reset_index followed by index += 1). -/
def leaderboardRanked (logs : List AgentRec) : List (Nat × LBEntry) :=
  (leaderboard logs).enum.map (fun p => (p.1 + 1, p.2))

/-- Containment of one character sequence inside another. -/
def charsContain (pat : List Char) (s : List Char) : Bool :=
  match s with
  | [] => pat.isEmpty
  | _ :: t => pat.isPrefixOf s || charsContain pat t

/-- str.contains(Missed|Abandoned|Lost, case=False): case-insensitive
substring containment of any of the three markers. -/
def missedStatus (s : String) : Bool :=
  let t := s.data.map Char.toLower
  charsContain "missed".data t || charsContain "abandoned".data t ||
    charsContain "lost".data t

/-- The five traffic quantities and the Sankey link list of
render_live_traffic. -/
structure TrafficFlow where
  incoming : Nat
  handled : Nat
  missed : Nat
  assigned : Nat
  pending : Nat
  links : List (Nat × Nat × Nat)
deriving DecidableEq, Repr

/-- render_live_traffic metric block: date filters on both logs, the missed
mask over the daily System Logs, the date-independent queue tallies, and
the link triples (source node, target node, value) of the flow graph with
node 0 = incoming, 1 = handled, 2 = missed, 3 = assigned, 4 = pending. -/
def traffic_flow (sys : List SystemRec) (ag : List AgentRec) (q : List QueueEntry)
    (d : CalDate) : TrafficFlow :=
  let daily_system := sys.filter (fun r => decide (r.timestamp.map TS.toDate = some d))
  let daily_agents := ag.filter (fun r => decide (r.timestamp.map TS.toDate = some d))
  let total_missed := (daily_system.filter (fun r => missedStatus r.callStatus)).length
  let ready_count := (q.filter (fun e => e.status == "Ready")).length
  let assigned_count := (q.filter (fun e => e.status == "Assigned")).length
  { incoming := daily_system.length, handled := daily_agents.length,
    missed := total_missed, assigned := assigned_count, pending := ready_count,
    links := [(0, 1, daily_agents.length), (0, 2, total_missed),
              (2, 3, assigned_count), (2, 4, ready_count)] }

/-- The hourly-volume series: value_counts of the Hour column (null hours
dropped) sorted by hour ascending. -/
def hourly_counts (logs : List AgentRec) : List (Nat × Nat) :=
  (List.range 24).filterMap (fun h =>
    let c := (logs.filter (fun r => decide (r.timestamp.map TS.hour = some h))).length
    if c = 0 then none else some (h, c))

/-- Date filter df[df[Date] == selected_date] over agent records. -/
def dateFiltered (logs : List AgentRec) (d : CalDate) : List AgentRec :=
  logs.filter (fun r => decide (r.timestamp.map TS.toDate = some d))

/-- Modelled from the spec: the first-encountered order of distinct values,
used to state the tie-break rule the spec asserts for mode KPIs and the
leaderboard. -/
def firstSeenDistinct (vs : List String) : List String :=
  vs.foldl (fun acc v => if v ∈ acc then acc else acc ++ [v]) []

/-- Modelled from the spec: a mode whose ties are broken by
first-encountered order, the rule the spec claims for the mode KPIs. -/
def modeFirstSeen (vs : List String) : String :=
  match (firstSeenDistinct vs).filter (fun v => valCount vs v == maxValCount vs) with
  | [] => "N/A"
  | h :: _ => h

/-- entryLe is total: any two leaderboard rows compare. -/
instance : IsTotal LBEntry entryLe where
  total := by
    intro a b
    unfold entryLe
    rcases lt_trichotomy a.successCount b.successCount with hs | hs | hs
    · exact Or.inr (Or.inl hs)
    · rcases lt_trichotomy a.conversionRate b.conversionRate with hr | hr | hr
      · exact Or.inr (Or.inr (Or.inl ⟨hs.symm, hr⟩))
      · rcases le_total a.agentName b.agentName with hn | hn
        · exact Or.inl (Or.inr (Or.inr ⟨hs, hr, hn⟩))
        · exact Or.inr (Or.inr (Or.inr ⟨hs.symm, hr.symm, hn⟩))
      · exact Or.inl (Or.inr (Or.inl ⟨hs, hr⟩))
    · exact Or.inl (Or.inl hs)

/-- entryLe is transitive. -/
instance : IsTrans LBEntry entryLe where
  trans := by
    intro a b c hab hbc
    unfold entryLe at hab hbc ⊢
    rcases hab with h1 | ⟨e1, h1⟩ | ⟨e1, e2, h1⟩ <;>
      rcases hbc with h2 | ⟨f1, h2⟩ | ⟨f1, f2, h2⟩
    · exact Or.inl (h2.trans h1)
    · exact Or.inl (by omega)
    · exact Or.inl (by omega)
    · exact Or.inl (by omega)
    · exact Or.inr (Or.inl ⟨e1.trans f1, h2.trans h1⟩)
    · refine Or.inr (Or.inl ⟨e1.trans f1, ?_⟩)
      rw [← f2]
      exact h1
    · exact Or.inl (by omega)
    · refine Or.inr (Or.inl ⟨e1.trans f1, ?_⟩)
      rw [e2]
      exact h2
    · exact Or.inr (Or.inr ⟨e1.trans f1, e2.trans f2, h1.trans h2⟩)

/-! ### Concrete inputs used by scenario checks and witnesses -/

/-- A fixed valid timestamp. -/
def sampleTS : TS := ⟨2024, 1, 15, 9, 30, 0⟩

/-- An agent record with the varying fields exposed. -/
def sampleRec (ts : Option TS) (status source skill agent : String) : AgentRec :=
  { timestamp := ts, phone := "0700000000", leadStatus := status, source := source,
    category := "General Inquiry", specificReason := "N/A", skill := skill,
    county := "Nairobi", agentName := agent, callStatus := "Answered" }

/-- Scenario A of the spec: 10 rows, 4 Interested, 2 Registered, 4 Inquiry Only. -/
def scenarioA : List AgentRec :=
  List.replicate 4 (sampleRec (some sampleTS) "Interested" "Facebook" "Driver" "Agent One") ++
    List.replicate 2 (sampleRec (some sampleTS) "Registered" "Facebook" "Driver" "Agent One") ++
    List.replicate 4 (sampleRec (some sampleTS) "Inquiry Only" "Facebook" "Driver" "Agent One")

/-- One agent with one null-timestamp record and one parsed record. -/
def exC2 : List AgentRec :=
  [sampleRec none "Inquiry Only" "Radio" "Chef" "Agent A",
   sampleRec (some sampleTS) "Inquiry Only" "Radio" "Chef" "Agent A"]

/-- Two fully tied agents appearing in the input in reverse alphabetical order. -/
def exC3 : List AgentRec :=
  [sampleRec (some sampleTS) "Interested" "Radio" "Chef" "Bob",
   sampleRec (some sampleTS) "Interested" "Radio" "Chef" "Alice"]

/-- Two equally frequent sources, the later one alphabetically smaller. -/
def exC8 : List AgentRec :=
  [sampleRec (some sampleTS) "Inquiry Only" "Beta" "Tailor" "Agent A",
   sampleRec (some sampleTS) "Inquiry Only" "Alpha" "Tailor" "Agent A"]

/-- Raw sheet whose header carries Category but no Disposition. -/
def rowsC5 : List (List String) :=
  [["Timestamp", "Category"], ["15/01/2024 09:30:00", "Jobs"]]

/-- Raw sheet omitting both Category and Disposition (Scenario D shape). -/
def rowsC5w1 : List (List String) :=
  [["Timestamp"], ["15/01/2024 09:30:00"]]

/-- Raw sheet with Disposition but no Category. -/
def rowsC5w2 : List (List String) :=
  [["Timestamp", "Disposition"], ["15/01/2024 09:30:00", "Jobs"]]

/-- Raw System Log sheet holding one day/month-ambiguous timestamp. -/
def rowsC6sys : List (List String) :=
  [["Timestamp", "Call Status"], ["05/03/2024 10:30:00", "OK"]]

/-- Raw Agent Log sheet with one ambiguous timestamp and one unparsable one. -/
def rowsC6ag : List (List String) :=
  [["Timestamp", "Agent Name"], ["05/03/2024 10:30:00", "Agent A"],
   ["not a date", "Agent B"]]

/-- The single record produced from rowsC5w1. -/
def recC5w : AgentRec :=
  { timestamp := some ⟨2024, 1, 15, 9, 30, 0⟩, phone := "",
    leadStatus := "Inquiry Only", source := "Unknown", category := "General Inquiry",
    specificReason := "N/A", skill := "N/A", county := "N/A",
    agentName := "Unknown", callStatus := "Answered" }

/-- A small already-typed agent frame used to exercise idempotence. -/
def frameC9 : Frame :=
  [("Timestamp", [Cell.str "15/01/2024 09:30:00"]), ("Agent Name", [Cell.str "Agent A"])]

/-- A workbook whose optional worksheets are all missing. -/
def wbC7 : Workbook :=
  { conn := .ok (), sheet1 := .ok [["Timestamp"]],
    worksheet := fun _ => .error "WorksheetNotFound" }

/-- A workbook whose mandatory first sheet fails to fetch. -/
def wbC7b : Workbook :=
  { conn := .ok (), sheet1 := .error "SpreadsheetNotFound",
    worksheet := fun _ => .error "WorksheetNotFound" }

/-- A dated agent record on a day with no system traffic. -/
def recC10 : AgentRec := sampleRec (some sampleTS) "Inquiry Only" "Radio" "Chef" "Agent A"

/-- A single-record log used to instantiate leaderboard statements. -/
def logsC2w : List AgentRec :=
  [sampleRec (some sampleTS) "Interested" "TV" "Guard" "Agent B"]

/-- A single-record log used to instantiate mode statements. -/
def logsC8w : List AgentRec :=
  [sampleRec (some sampleTS) "Inquiry Only" "TV" "Guard" "Agent B"]

/-! ### Frame algebra lemmas -/

@[simp]
theorem colNames_nil : colNames [] = [] := rfl

@[simp]
theorem colNames_cons (p : String × List Cell) (t : Frame) :
    colNames (p :: t) = p.1 :: colNames t := rfl

theorem colNames_append (f g : Frame) :
    colNames (f ++ g) = colNames f ++ colNames g := by
  simp [colNames]

@[simp]
theorem getCol_nil (n : String) : getCol [] n = none := rfl

@[simp]
theorem getCol_cons (p : String × List Cell) (t : Frame) (n : String) :
    getCol (p :: t) n = if p.1 = n then some p.2 else getCol t n := rfl

theorem getCol_isSome_iff (f : Frame) (n : String) :
    (getCol f n).isSome ↔ n ∈ colNames f := by
  induction f with
  | nil => simp
  | cons p t ih =>
    by_cases h : p.1 = n
    · simp [h]
    · have hne : ¬ n = p.1 := fun hc => h hc.symm
      simp [h, hne, ih]

theorem exists_getCol_of_mem {f : Frame} {n : String} (h : n ∈ colNames f) :
    ∃ v, getCol f n = some v := by
  have hs := (getCol_isSome_iff f n).2 h
  cases hg : getCol f n with
  | none => rw [hg] at hs; simp at hs
  | some v => exact ⟨v, rfl⟩

theorem getCol_eq_none_of_not_mem {f : Frame} {n : String} (h : n ∉ colNames f) :
    getCol f n = none := by
  cases hg : getCol f n with
  | none => rfl
  | some v => exact absurd ((getCol_isSome_iff f n).1 (by simp [hg])) h

theorem map_replace_of_not_mem {f : Frame} {n : String} {v : List Cell}
    (h : n ∉ colNames f) :
    f.map (fun p => if p.1 = n then (n, v) else p) = f := by
  induction f with
  | nil => rfl
  | cons p t ih =>
    simp only [colNames_cons, List.mem_cons] at h
    push_neg at h
    have hpn : ¬ p.1 = n := fun hc => h.1 hc.symm
    simp only [List.map_cons, if_neg hpn]
    rw [ih h.2]

theorem colNames_map_replace (f : Frame) (n : String) (v : List Cell) :
    colNames (f.map (fun p => if p.1 = n then (n, v) else p)) = colNames f := by
  have hf : ∀ p : String × List Cell, (if p.1 = n then (n, v) else p).1 = p.1 := by
    intro p
    by_cases hp : p.1 = n
    · simp [hp]
    · simp [hp]
  unfold colNames
  rw [List.map_map]
  exact List.map_congr_left (fun p _ => hf p)

theorem colNames_setCol_of_mem {f : Frame} {n : String} (v : List Cell)
    (h : n ∈ colNames f) : colNames (setCol f n v) = colNames f := by
  unfold setCol
  rw [if_pos h]
  exact colNames_map_replace f n v

theorem colNames_setCol_of_not_mem {f : Frame} {n : String} (v : List Cell)
    (h : n ∉ colNames f) : colNames (setCol f n v) = colNames f ++ [n] := by
  unfold setCol
  rw [if_neg h]
  simp [colNames]

theorem getCol_append_of_mem {f : Frame} (g : Frame) {n : String}
    (h : n ∈ colNames f) : getCol (f ++ g) n = getCol f n := by
  induction f with
  | nil => simp at h
  | cons p t ih =>
    by_cases hp : p.1 = n
    · simp [hp]
    · have hne : ¬ n = p.1 := fun hc => hp hc.symm
      simp only [colNames_cons, List.mem_cons] at h
      rcases h with h | h
      · exact absurd h hne
      · simp only [List.cons_append, getCol_cons, if_neg hp]
        exact ih h

theorem getCol_append_of_not_mem {f : Frame} (g : Frame) {n : String}
    (h : n ∉ colNames f) : getCol (f ++ g) n = getCol g n := by
  induction f with
  | nil => rfl
  | cons p t ih =>
    simp only [colNames_cons, List.mem_cons] at h
    push_neg at h
    have hpn : ¬ p.1 = n := fun hc => h.1 hc.symm
    simp only [List.cons_append, getCol_cons, if_neg hpn]
    exact ih h.2

theorem getCol_setCol_self (f : Frame) (n : String) (v : List Cell) :
    getCol (setCol f n v) n = some v := by
  unfold setCol
  by_cases h : n ∈ colNames f
  · rw [if_pos h]
    induction f with
    | nil => simp at h
    | cons p t ih =>
      by_cases hp : p.1 = n
      · simp [hp]
      · have hne : ¬ n = p.1 := fun hc => hp hc.symm
        simp only [colNames_cons, List.mem_cons] at h
        rcases h with h | h
        · exact absurd h hne
        · simp only [List.map_cons, getCol_cons, if_neg hp]
          exact ih h
  · rw [if_neg h]
    rw [getCol_append_of_not_mem _ h]
    simp

theorem getCol_setCol_ne (f : Frame) {m n : String} (v : List Cell) (h : m ≠ n) :
    getCol (setCol f n v) m = getCol f m := by
  have hnm : ¬ n = m := fun hc => h hc.symm
  unfold setCol
  by_cases hmem : n ∈ colNames f
  · rw [if_pos hmem]
    induction f with
    | nil => rfl
    | cons p t ih =>
      by_cases hp : p.1 = n
      · simp only [List.map_cons, if_pos hp, getCol_cons, if_neg hnm]
        have hpm : ¬ p.1 = m := fun hc => hnm (hp ▸ hc)
        rw [if_neg hpm]
        by_cases ht : n ∈ colNames t
        · exact ih ht
        · rw [map_replace_of_not_mem ht]
      · simp only [List.map_cons, if_neg hp, getCol_cons]
        by_cases hpm : p.1 = m
        · simp [hpm]
        · rw [if_neg hpm, if_neg hpm]
          by_cases ht : n ∈ colNames t
          · exact ih ht
          · rw [map_replace_of_not_mem ht]
  · rw [if_neg hmem]
    by_cases hm : m ∈ colNames f
    · exact getCol_append_of_mem _ hm
    · rw [getCol_append_of_not_mem _ hm, getCol_eq_none_of_not_mem hm]
      simp [hnm]

theorem setCol_eq_self {f : Frame} {n : String} {v : List Cell}
    (hnd : (colNames f).Nodup) (hv : getCol f n = some v) : setCol f n v = f := by
  have hmem : n ∈ colNames f := (getCol_isSome_iff f n).1 (by simp [hv])
  unfold setCol
  rw [if_pos hmem]
  induction f with
  | nil => rfl
  | cons p t ih =>
    simp only [colNames_cons, List.nodup_cons] at hnd
    by_cases hp : p.1 = n
    · simp only [getCol_cons, if_pos hp] at hv
      cases hv
      simp only [List.map_cons, if_pos hp]
      have hnt : n ∉ colNames t := hp ▸ hnd.1
      rw [map_replace_of_not_mem hnt, ← hp]
    · simp only [getCol_cons, if_neg hp] at hv
      simp only [List.map_cons, if_neg hp]
      have hmt : n ∈ colNames t := (getCol_isSome_iff t n).1 (by simp [hv])
      rw [ih hnd.2 hv hmt]

theorem setCol_ne_nil (f : Frame) (n : String) (v : List Cell) :
    setCol f n v ≠ [] := by
  unfold setCol
  by_cases h : n ∈ colNames f
  · rw [if_pos h]
    intro hc
    rw [List.map_eq_nil_iff] at hc
    subst hc
    simp at h
  · rw [if_neg h]
    simp

theorem colNames_setCol_nodup {f : Frame} {n : String} (v : List Cell)
    (h : (colNames f).Nodup) : (colNames (setCol f n v)).Nodup := by
  by_cases hm : n ∈ colNames f
  · rw [colNames_setCol_of_mem v hm]; exact h
  · rw [colNames_setCol_of_not_mem v hm]
    simp [List.nodup_append, h, hm]

theorem nrows_append_single (f : Frame) (d : String × List Cell) (h : f ≠ []) :
    nrows (f ++ [d]) = nrows f := by
  cases f with
  | nil => exact absurd rfl h
  | cons p t => simp [nrows]

/-! ### applyDefaults lemmas -/

theorem getCol_applyDefaults_of_mem {ds : List (String × List Cell)} {f : Frame}
    {n : String} (h : n ∈ colNames f) :
    getCol (applyDefaults ds f) n = getCol f n := by
  induction ds generalizing f with
  | nil => rfl
  | cons d t ih =>
    unfold applyDefaults at *
    simp only [List.foldl_cons]
    by_cases hd : d.1 ∈ colNames f
    · rw [if_pos hd]; exact ih h
    · rw [if_neg hd]
      have hm : n ∈ colNames (f ++ [d]) := by
        rw [colNames_append]; exact List.mem_append_left _ h
      rw [ih hm]
      exact getCol_append_of_mem _ h

theorem mem_colNames_applyDefaults {ds : List (String × List Cell)} {f : Frame}
    {n : String} (h : n ∈ colNames f) :
    n ∈ colNames (applyDefaults ds f) := by
  induction ds generalizing f with
  | nil => exact h
  | cons d t ih =>
    unfold applyDefaults at *
    simp only [List.foldl_cons]
    by_cases hd : d.1 ∈ colNames f
    · rw [if_pos hd]; exact ih h
    · rw [if_neg hd]
      exact ih (by rw [colNames_append]; exact List.mem_append_left _ h)

theorem applyDefaults_eq_self {ds : List (String × List Cell)} {f : Frame}
    (h : ∀ d ∈ ds, d.1 ∈ colNames f) : applyDefaults ds f = f := by
  induction ds with
  | nil => rfl
  | cons d t ih =>
    unfold applyDefaults at *
    simp only [List.foldl_cons]
    rw [if_pos (h d (by simp))]
    exact ih (fun e he => h e (by simp [he]))

theorem mem_keys_applyDefaults {ds : List (String × List Cell)} {f : Frame}
    {d : String × List Cell} (hd : d ∈ ds) :
    d.1 ∈ colNames (applyDefaults ds f) := by
  induction ds generalizing f with
  | nil => simp at hd
  | cons e t ih =>
    unfold applyDefaults at *
    simp only [List.foldl_cons]
    rcases List.mem_cons.1 hd with h | h
    · subst h
      by_cases he : d.1 ∈ colNames f
      · rw [if_pos he]; exact mem_colNames_applyDefaults he
      · rw [if_neg he]
        refine mem_colNames_applyDefaults ?_
        rw [colNames_append]
        exact List.mem_append_right _ (by simp)
    · by_cases he : e.1 ∈ colNames f
      · rw [if_pos he]; exact ih h
      · rw [if_neg he]; exact ih h

theorem colNames_applyDefaults_nodup {ds : List (String × List Cell)} {f : Frame}
    (h : (colNames f).Nodup) : (colNames (applyDefaults ds f)).Nodup := by
  induction ds generalizing f with
  | nil => exact h
  | cons d t ih =>
    unfold applyDefaults at *
    simp only [List.foldl_cons]
    by_cases hd : d.1 ∈ colNames f
    · rw [if_pos hd]; exact ih h
    · rw [if_neg hd]
      refine ih ?_
      rw [colNames_append]
      simp [List.nodup_append, h, hd]

theorem applyDefaults_cons (d : String × List Cell) (t : List (String × List Cell))
    (f : Frame) :
    applyDefaults (d :: t) f =
      applyDefaults t (if d.1 ∈ colNames f then f else f ++ [d]) := rfl

theorem getCol_applyDefaults_missing {ds : List (String × List Cell)} {f : Frame}
    {d : String × List Cell} (hk : (ds.map Prod.fst).Nodup) (hd : d ∈ ds)
    (hn : d.1 ∉ colNames f) :
    getCol (applyDefaults ds f) d.1 = some d.2 := by
  induction ds generalizing f with
  | nil => simp at hd
  | cons e t ih =>
    rw [applyDefaults_cons]
    simp only [List.map_cons, List.nodup_cons] at hk
    rcases List.mem_cons.1 hd with h | h
    · subst h
      rw [if_neg hn]
      have hm : d.1 ∈ colNames (f ++ [d]) := by
        rw [colNames_append]; exact List.mem_append_right _ (by simp)
      rw [getCol_applyDefaults_of_mem hm]
      rw [getCol_append_of_not_mem _ hn]
      simp
    · have hne : e.1 ≠ d.1 := by
        intro hc
        exact hk.1 (hc ▸ List.mem_map_of_mem Prod.fst h)
      by_cases he : e.1 ∈ colNames f
      · rw [if_pos he]; exact ih hk.2 h hn
      · rw [if_neg he]
        refine ih hk.2 h ?_
        rw [colNames_append]
        intro hc
        rcases List.mem_append.1 hc with hc | hc
        · exact hn hc
        · simp at hc
          exact hne hc.symm

theorem getCol_applyDefaults_missing2 {ds : List (String × List Cell)} {f : Frame}
    {n : String} {v : List Cell} (hk : (ds.map Prod.fst).Nodup) (hd : (n, v) ∈ ds)
    (hn : n ∉ colNames f) :
    getCol (applyDefaults ds f) n = some v :=
  getCol_applyDefaults_missing hk hd hn

theorem colNames_applyDefaults_sub {ds : List (String × List Cell)} {f : Frame}
    {n : String} (h : n ∈ colNames (applyDefaults ds f)) :
    n ∈ colNames f ∨ n ∈ ds.map Prod.fst := by
  induction ds generalizing f with
  | nil => exact Or.inl h
  | cons d t ih =>
    unfold applyDefaults at *
    simp only [List.foldl_cons] at h
    by_cases hd : d.1 ∈ colNames f
    · rw [if_pos hd] at h
      rcases ih h with h | h
      · exact Or.inl h
      · exact Or.inr (by simp [h])
    · rw [if_neg hd] at h
      rcases ih h with h | h
      · rw [colNames_append] at h
        rcases List.mem_append.1 h with h | h
        · exact Or.inl h
        · simp at h
          exact Or.inr (by simp [h])
      · exact Or.inr (by simp [h])

theorem nrows_applyDefaults {ds : List (String × List Cell)} {f : Frame}
    (h : f ≠ []) : nrows (applyDefaults ds f) = nrows f := by
  induction ds generalizing f with
  | nil => rfl
  | cons d t ih =>
    unfold applyDefaults at *
    simp only [List.foldl_cons]
    by_cases hd : d.1 ∈ colNames f
    · rw [if_pos hd]; exact ih h
    · rw [if_neg hd]
      rw [ih (by simp)]
      exact nrows_append_single f d h

/-! ### List-level helper lemmas for the metrics -/

theorem foldl_min_mem (h : String) (t : List String) : t.foldl min h ∈ h :: t := by
  induction t generalizing h with
  | nil => simp
  | cons x t ih =>
    simp only [List.foldl_cons]
    rcases List.mem_cons.1 (ih (min h x)) with hm | hm
    · rcases le_total h x with hc | hc
      · rw [hm, min_eq_left hc]; simp
      · rw [hm, min_eq_right hc]; simp
    · simp [hm]

theorem foldl_min_le (h : String) (t : List String) :
    ∀ y ∈ h :: t, t.foldl min h ≤ y := by
  induction t generalizing h with
  | nil =>
    intro y hy
    simp at hy
    simp [hy]
  | cons x t ih =>
    intro y hy
    simp only [List.foldl_cons]
    rcases List.mem_cons.1 hy with hy | hy
    · rw [hy]
      exact le_trans (ih (min h x) (min h x) (by simp)) (min_le_left h x)
    · rcases List.mem_cons.1 hy with hy | hy
      · rw [hy]
        exact le_trans (ih (min h x) (min h x) (by simp)) (min_le_right h x)
      · exact ih (min h x) y (List.mem_cons_of_mem _ hy)

theorem le_foldr_max (l : List Nat) : ∀ x ∈ l, x ≤ l.foldr max 0 := by
  induction l with
  | nil => simp
  | cons y t ih =>
    intro x hx
    simp only [List.foldr_cons]
    rcases List.mem_cons.1 hx with hx | hx
    · subst hx; exact le_max_left _ _
    · exact le_trans (ih x hx) (le_max_right _ _)

theorem foldr_max_mem_or (l : List Nat) : l.foldr max 0 ∈ l ∨ l.foldr max 0 = 0 := by
  induction l with
  | nil => exact Or.inr rfl
  | cons y t ih =>
    simp only [List.foldr_cons]
    rcases le_total (t.foldr max 0) y with h | h
    · rw [max_eq_left h]; exact Or.inl (by simp)
    · rw [max_eq_right h]
      rcases ih with hm | hz
      · exact Or.inl (List.mem_cons_of_mem _ hm)
      · exact Or.inr hz

theorem count_le_maxValCount (vs : List String) : ∀ v ∈ vs, valCount vs v ≤ maxValCount vs := by
  intro v hv
  exact le_foldr_max _ _ (List.mem_map_of_mem _ (List.mem_dedup.2 hv))

theorem exists_mode_attained {vs : List String} (h : vs ≠ []) :
    ∃ v ∈ vs.dedup, valCount vs v = maxValCount vs := by
  rcases foldr_max_mem_or ((vs.dedup).map (fun v => valCount vs v)) with hm | hz
  · rcases List.mem_map.1 hm with ⟨v, hv, he⟩
    exact ⟨v, hv, he⟩
  · have hd : vs.dedup ≠ [] := by simpa [List.dedup_eq_nil] using h
    cases hde : vs.dedup with
    | nil => exact absurd hde hd
    | cons v t =>
      have hv : v ∈ vs.dedup := by rw [hde]; simp
      have hpos : 0 < valCount vs v := List.count_pos_iff.2 (List.mem_dedup.1 hv)
      have hle : valCount vs v ≤ (vs.dedup.map (fun v => valCount vs v)).foldr max 0 :=
        le_foldr_max _ _ (List.mem_map_of_mem _ hv)
      rw [hz] at hle
      omega

theorem modeCandidates_ne_nil {vs : List String} (h : vs ≠ []) : modeCandidates vs ≠ [] := by
  rcases exists_mode_attained h with ⟨v, hv, he⟩
  have : v ∈ modeCandidates vs := List.mem_filter.2 ⟨hv, by simp [he, maxValCount]⟩
  exact List.ne_nil_of_mem this

theorem count_eq_max_of_mem_modeCandidates {vs : List String} {c : String}
    (h : c ∈ modeCandidates vs) : valCount vs c = maxValCount vs := by
  have := (List.mem_filter.1 h).2
  simpa using this

theorem mem_of_mem_modeCandidates {vs : List String} {c : String}
    (h : c ∈ modeCandidates vs) : c ∈ vs :=
  List.mem_dedup.1 (List.mem_filter.1 h).1

theorem seriesModeHead_mem_candidates {vs : List String} (h : vs ≠ []) :
    seriesModeHead vs ∈ modeCandidates vs := by
  unfold seriesModeHead
  rcases hc : modeCandidates vs with _ | ⟨x, t⟩
  · exact absurd hc (modeCandidates_ne_nil h)
  · exact foldl_min_mem x t

theorem seriesModeHead_le_candidates {vs : List String} (h : vs ≠ []) :
    ∀ c ∈ modeCandidates vs, seriesModeHead vs ≤ c := by
  unfold seriesModeHead
  rcases hc : modeCandidates vs with _ | ⟨x, t⟩
  · exact absurd hc (modeCandidates_ne_nil h)
  · intro c hmem
    exact foldl_min_le x t c hmem

theorem length_filter_partition {α : Type} (p : α → Bool) (l : List α) :
    (l.filter p).length + (l.filter (fun a => !(p a))).length = l.length := by
  induction l with
  | nil => rfl
  | cons x t ih =>
    by_cases hx : p x = true
    · simp [List.filter_cons, hx, ← ih]
      omega
    · simp at hx
      simp [List.filter_cons, hx, ← ih]
      omega

/-! ### Leaderboard plumbing lemmas -/

theorem map_agentName_agent_entries (logs : List AgentRec) :
    (agent_entries logs).map (fun e => e.agentName) = agent_names logs := by
  unfold agent_entries
  rw [List.map_map]
  have h : ∀ a ∈ agent_names logs, ((fun e : LBEntry => e.agentName) ∘ mkEntry logs) a = id a :=
    fun a _ => rfl
  rw [List.map_congr_left h, List.map_id]

theorem agent_names_nodup (logs : List AgentRec) : (agent_names logs).Nodup := by
  unfold agent_names
  exact ((List.perm_insertionSort _ _).nodup_iff).2 (List.nodup_dedup _)

theorem leaderboard_perm (logs : List AgentRec) :
    (leaderboard logs).Perm (agent_entries logs) :=
  List.perm_insertionSort _ _

theorem leaderboard_names_nodup (logs : List AgentRec) :
    ((leaderboard logs).map (fun e => e.agentName)).Nodup := by
  have hp := (leaderboard_perm logs).map (fun e => e.agentName)
  rw [hp.nodup_iff, map_agentName_agent_entries]
  exact agent_names_nodup logs

theorem mem_leaderboard_iff {logs : List AgentRec} {e : LBEntry} :
    e ∈ leaderboard logs ↔ e ∈ agent_entries logs :=
  List.mem_insertionSort _

theorem map_fst_leaderboardRanked (logs : List AgentRec) :
    (leaderboardRanked logs).map Prod.fst = List.range' 1 (leaderboard logs).length := by
  unfold leaderboardRanked
  rw [List.map_map]
  have h1 : (Prod.fst ∘ fun p : Nat × LBEntry => (p.1 + 1, p.2)) =
      ((fun i => i + 1) ∘ Prod.fst) := rfl
  rw [h1, ← List.map_map, List.enum_map_fst, List.range'_eq_map_range]
  exact List.map_congr_left (fun i _ => by omega)

theorem beq_eq_decide_String (a b : String) : (a == b) = decide (a = b) := by
  by_cases h : a = b
  · simp [h]
  · simp [h]

/-! ### Claim theorems -/

/-- C1: for every Agent Log record set the interested count equals the number
of records whose leadStatus is Interested, Registered, or Registered (Paid
Activation), and the interested rate equals interested/total times 100 rounded
to one decimal, defined as 0 when the total is 0 (a total function, so no
division fault); on Scenario A (10 rows, 4 Interested, 2 Registered, rest
Inquiry Only) the count is 6 and the rate 60.0. -/
theorem C1_interested_kpi :
    (∀ logs : List AgentRec,
      interested_count logs =
        logs.countP (fun r => decide (r.leadStatus = "Interested" ∨
          r.leadStatus = "Registered" ∨ r.leadStatus = "Registered (Paid Activation)")) ∧
      (total_calls logs = 0 → interested_rate logs = 0) ∧
      (0 < total_calls logs →
        interested_rate logs =
          round1 ((interested_count logs : ℚ) / (total_calls logs : ℚ) * 100))) ∧
    interested_count scenarioA = 6 ∧ interested_rate scenarioA = 60 := by
  refine ⟨fun logs => ⟨?_, ?_, ?_⟩, by decide, by with_unfolding_all decide⟩
  · rw [List.countP_eq_length_filter]
    unfold interested_count
    congr 1
    apply List.filter_congr
    intro r _
    simp [interested_statuses]
  · intro h
    simp [interested_rate, h]
  · intro h
    simp [interested_rate, h]

/-- C1 witness: the rate guard and Scenario A instantiated concretely. -/
theorem C1_interested_kpi_witness :
    interested_rate ([] : List AgentRec) = 0 ∧ interested_count scenarioA = 6 :=
  ⟨(C1_interested_kpi.1 []).2.1 rfl, C1_interested_kpi.2.1⟩

/-- C4: for every selected date the flow model counts incoming as the
date-filtered System Log records, handled as the date-filtered Agent Log
records, missed as the date-filtered System Log records whose callStatus
contains (case-insensitively) Missed, Abandoned or Lost, assigned and pending
as the Ready/Assigned Recovery Queue tallies independent of the selected
date, and emits exactly the four directed links incoming to handled,
incoming to missed, missed to assigned, missed to pending
(nodes 0 incoming, 1 handled, 2 missed, 3 assigned, 4 pending). -/
theorem C4_traffic_flow_model :
    ∀ (sys : List SystemRec) (ag : List AgentRec) (q : List QueueEntry) (d d2 : CalDate),
      (traffic_flow sys ag q d).incoming =
          sys.countP (fun r => decide (r.timestamp.map TS.toDate = some d)) ∧
      (traffic_flow sys ag q d).handled =
          ag.countP (fun r => decide (r.timestamp.map TS.toDate = some d)) ∧
      (traffic_flow sys ag q d).missed =
          sys.countP (fun r => decide (r.timestamp.map TS.toDate = some d) &&
            missedStatus r.callStatus) ∧
      (traffic_flow sys ag q d).assigned =
          q.countP (fun e => decide (e.status = "Assigned")) ∧
      (traffic_flow sys ag q d).pending =
          q.countP (fun e => decide (e.status = "Ready")) ∧
      (traffic_flow sys ag q d2).assigned = (traffic_flow sys ag q d).assigned ∧
      (traffic_flow sys ag q d2).pending = (traffic_flow sys ag q d).pending ∧
      (traffic_flow sys ag q d).links =
        [(0, 1, (traffic_flow sys ag q d).handled),
         (0, 2, (traffic_flow sys ag q d).missed),
         (2, 3, (traffic_flow sys ag q d).assigned),
         (2, 4, (traffic_flow sys ag q d).pending)] ∧
      missedStatus "Call ABANDONED by user" = true ∧
      missedStatus "Lost in queue" = true ∧
      missedStatus "Answered" = false := by
  intro sys ag q d d2
  refine ⟨?_, ?_, ?_, ?_, ?_, rfl, rfl, rfl, by decide, by decide, by decide⟩
  · rw [List.countP_eq_length_filter]; rfl
  · rw [List.countP_eq_length_filter]; rfl
  · rw [List.countP_eq_length_filter]
    show ((sys.filter _).filter _).length = _
    rw [List.filter_filter]
    congr 1
    apply List.filter_congr
    intro r _
    rw [Bool.and_comm]
  · rw [List.countP_eq_length_filter]; rfl
  · rw [List.countP_eq_length_filter]; rfl

/-- C10: the missed count is always at most the incoming count, being
counted from a sub-filter of the same date-filtered System Log set; no such
bound ties handled to incoming, witnessed by a date with an agent-logged
call but no system traffic. -/
theorem C10_missed_bounded_by_incoming :
    (∀ (sys : List SystemRec) (ag : List AgentRec) (q : List QueueEntry) (d : CalDate),
      (traffic_flow sys ag q d).missed ≤ (traffic_flow sys ag q d).incoming) ∧
    (traffic_flow [] [recC10] [] sampleTS.toDate).incoming <
      (traffic_flow [] [recC10] [] sampleTS.toDate).handled := by
  constructor
  · intro sys ag q d
    exact List.length_filter_le _ _
  · decide

/-- C8 counterexample: with sources Beta then Alpha, each occurring once,
the top-source KPI returns Alpha, the alphabetically smallest modal value,
not the first-encountered mode Beta — refuting the claimed
first-encountered-order tie-break. -/
theorem C8_mode_tiebreak_counterexample :
    top_source exC8 = "Alpha" ∧
    modeFirstSeen (exC8.map (fun r => r.source)) = "Beta" ∧
    ("Alpha" : String) ≠ "Beta" := by with_unfolding_all decide

/-- C8 (amended): the most-frequent-source and most-frequent-skill KPIs
return a mode of the respective field with ties broken by the smallest value
in ascending sort order (pandas mode() sorts its result before indexing),
and on an empty record set they return the sentinel N/A as total functions
that never raise. -/
theorem C8_mode_kpis (logs : List AgentRec) (hne : logs ≠ []) :
    (top_source logs ∈ modeCandidates (logs.map (fun r => r.source)) ∧
      (∀ v ∈ logs.map (fun r => r.source),
        valCount (logs.map (fun r => r.source)) v ≤
          valCount (logs.map (fun r => r.source)) (top_source logs)) ∧
      (∀ c ∈ modeCandidates (logs.map (fun r => r.source)), top_source logs ≤ c)) ∧
    (top_skill logs ∈ modeCandidates (logs.map (fun r => r.skill)) ∧
      (∀ v ∈ logs.map (fun r => r.skill),
        valCount (logs.map (fun r => r.skill)) v ≤
          valCount (logs.map (fun r => r.skill)) (top_skill logs)) ∧
      (∀ c ∈ modeCandidates (logs.map (fun r => r.skill)), top_skill logs ≤ c)) ∧
    top_source ([] : List AgentRec) = "N/A" ∧ top_skill ([] : List AgentRec) = "N/A" := by
  have hsrc : logs.map (fun r => r.source) ≠ [] := by
    simpa [List.map_eq_nil_iff] using hne
  have hskl : logs.map (fun r => r.skill) ≠ [] := by
    simpa [List.map_eq_nil_iff] using hne
  have hts : top_source logs = seriesModeHead (logs.map (fun r => r.source)) := by
    unfold top_source
    rw [if_neg (by simpa [List.isEmpty_iff] using hne)]
  have htk : top_skill logs = seriesModeHead (logs.map (fun r => r.skill)) := by
    unfold top_skill
    rw [if_neg (by simpa [List.isEmpty_iff] using hne)]
  refine ⟨⟨?_, ?_, ?_⟩, ⟨?_, ?_, ?_⟩, rfl, rfl⟩
  · rw [hts]; exact seriesModeHead_mem_candidates hsrc
  · intro v hv
    rw [hts, count_eq_max_of_mem_modeCandidates (seriesModeHead_mem_candidates hsrc)]
    exact count_le_maxValCount _ v hv
  · rw [hts]; exact seriesModeHead_le_candidates hsrc
  · rw [htk]; exact seriesModeHead_mem_candidates hskl
  · intro v hv
    rw [htk, count_eq_max_of_mem_modeCandidates (seriesModeHead_mem_candidates hskl)]
    exact count_le_maxValCount _ v hv
  · rw [htk]; exact seriesModeHead_le_candidates hskl

/-- C8 witness: the amended mode statement instantiated on a one-record log. -/
theorem C8_mode_kpis_witness :
    top_source logsC8w ∈ modeCandidates (logsC8w.map (fun r => r.source)) :=
  (C8_mode_kpis logsC8w (by decide)).1.1

/-- C2 counterexample: an agent with one unparsable-timestamp record and one
parsed record has a group of size 2, yet the leaderboard's totalCalls is 1:
the (Timestamp, count) aggregation counts only non-null timestamps, refuting
"including those with a null timestamp". -/
theorem C2_totalCalls_counterexample :
    (exC2.filter (fun r => r.agentName == "Agent A")).length = 2 ∧
    (leaderboard exC2).map (fun e => e.totalCalls) = [1] := by
  with_unfolding_all decide

/-- C2 (amended): for every leaderboard row, totalCalls counts the agent's
records with a non-null timestamp (the (Timestamp, count) aggregation),
successCount counts all of the agent's records whose leadStatus is in the
interested set, conversionRate is round(successCount/totalCalls*100, 1)
whenever totalCalls is positive, and every agent occurring in the records
has a leaderboard row. -/
theorem C2_leaderboard_stats (logs : List AgentRec) (e : LBEntry)
    (he : e ∈ leaderboard logs) :
    e.totalCalls =
      logs.countP (fun r => decide (r.agentName = e.agentName ∧ r.timestamp ≠ none)) ∧
    e.successCount =
      logs.countP (fun r => decide (r.agentName = e.agentName ∧
        (r.leadStatus = "Interested" ∨ r.leadStatus = "Registered" ∨
          r.leadStatus = "Registered (Paid Activation)"))) ∧
    (0 < e.totalCalls →
      e.conversionRate = round1 ((e.successCount : ℚ) / (e.totalCalls : ℚ) * 100)) ∧
    ∀ r ∈ logs, r.agentName ∈ (leaderboard logs).map (fun x => x.agentName) := by
  obtain ⟨a, ha, hae⟩ := List.mem_map.1 (mem_leaderboard_iff.1 he)
  subst hae
  rw [show (mkEntry logs a).agentName = a from rfl]
  refine ⟨?_, ?_, ?_, ?_⟩
  · rw [List.countP_eq_length_filter]
    rfl
  · rw [List.countP_eq_length_filter]
    show ((logs.filter (fun r => interested_statuses.contains r.leadStatus)).filter
      (fun r => r.agentName == a)).length = _
    rw [List.filter_filter]
    congr 1
    apply List.filter_congr
    intro r _
    rw [beq_eq_decide_String]
    by_cases h : r.agentName = a
    · simp [h, interested_statuses]
    · simp [h]
  · intro _
    rfl
  · intro r hr
    have hpm := (leaderboard_perm logs).map (fun x : LBEntry => x.agentName)
    rw [hpm.mem_iff, map_agentName_agent_entries]
    unfold agent_names
    rw [List.mem_insertionSort]
    exact List.mem_dedup.2 (List.mem_map_of_mem _ hr)

/-- C2 witness: the amended totalCalls equation instantiated on a concrete
one-agent record set, with the membership hypothesis discharged by decide. -/
theorem C2_leaderboard_stats_witness :
    (mkEntry logsC2w "Agent B").totalCalls =
      logsC2w.countP (fun r => decide (r.agentName = (mkEntry logsC2w "Agent B").agentName ∧
        r.timestamp ≠ none)) :=
  (C2_leaderboard_stats logsC2w (mkEntry logsC2w "Agent B") (by with_unfolding_all decide)).1

/-- C3 counterexample: two fully tied agents entered as Bob then Alice come
out of the leaderboard as Alice then Bob — full ties follow the alphabetical
groupby key order, not the first-encountered order of the input records. -/
theorem C3_tie_order_counterexample :
    (leaderboard exC3).map (fun e => e.agentName) = ["Alice", "Bob"] ∧
    firstSeenDistinct (exC3.map (fun r => r.agentName)) = ["Bob", "Alice"] ∧
    (leaderboard exC3).map (fun e => e.successCount) = [1, 1] ∧
    (leaderboard exC3).map (fun e => e.conversionRate) = [100, 100] := by
  with_unfolding_all decide

/-- C3 (amended): the leaderboard is sorted descending with successCount as
the primary key and conversionRate as the tie-break, agents tied on both
keys appear in ascending alphabetical order of agentName (the groupby key
order, which the stable multi-key sort preserves), and rank is the 1-based
position in that order. -/
theorem C3_leaderboard_order (logs : List AgentRec) :
    (leaderboard logs).Pairwise (fun a b =>
      b.successCount < a.successCount ∨
      (a.successCount = b.successCount ∧ b.conversionRate < a.conversionRate) ∨
      (a.successCount = b.successCount ∧ a.conversionRate = b.conversionRate ∧
        a.agentName < b.agentName)) ∧
    (leaderboardRanked logs).map Prod.fst = List.range' 1 (leaderboard logs).length := by
  constructor
  · have hs : (leaderboard logs).Pairwise entryLe :=
      List.sorted_insertionSort entryLe (agent_entries logs)
    have hn : (leaderboard logs).Pairwise (fun a b => a.agentName ≠ b.agentName) :=
      List.pairwise_map.1 (leaderboard_names_nodup logs)
    have hc := hs.and hn
    refine List.Pairwise.imp ?_ hc
    intro a b hab
    rcases hab with ⟨hle, hne⟩
    rcases hle with h | ⟨e1, h⟩ | ⟨e1, e2, h⟩
    · exact Or.inl h
    · exact Or.inr (Or.inl ⟨e1, h⟩)
    · exact Or.inr (Or.inr ⟨e1, e2, lt_of_le_of_ne h hne⟩)
  · exact map_fst_leaderboardRanked logs

/-- C6 counterexample: the System Log loader parses the ambiguous token
05/03/2024 as May 3 (the library default month-first preference, no dayfirst
flag at line 133), while day-first parsing reads it as March 5 — refuting
the claim that every source's timestamp cell is parsed day-first. -/
theorem C6_dayfirst_counterexample :
    (systemRecordsOf (load_system_logs_rows rowsC6sys)).map (fun r => r.timestamp) =
      [some ⟨2024, 5, 3, 10, 30, 0⟩] ∧
    parseDayFirstTS "05/03/2024 10:30:00" = some ⟨2024, 3, 5, 10, 30, 0⟩ ∧
    (⟨2024, 5, 3, 10, 30, 0⟩ : TS) ≠ ⟨2024, 3, 5, 10, 30, 0⟩ := by
  with_unfolding_all decide

/-- C6 (amended): Agent Log timestamps are parsed day-first while System Log
timestamps use the library default month-first preference; a cell that fails
to parse yields a record with a null timestamp; records with a null
timestamp are excluded from the hourly histogram and from date-filtered
aggregates but still counted in total-volume aggregates. -/
theorem C6_timestamp_policy :
    (∀ logs : List AgentRec,
      hourly_counts logs =
        hourly_counts (logs.filter (fun r => decide (r.timestamp ≠ none))) ∧
      (∀ d, dateFiltered logs d =
        dateFiltered (logs.filter (fun r => decide (r.timestamp ≠ none))) d) ∧
      total_calls logs =
        (logs.filter (fun r => decide (r.timestamp ≠ none))).length +
          (logs.filter (fun r => decide (r.timestamp = none))).length) ∧
    parseDayFirstTS "05/03/2024 10:30:00" = some ⟨2024, 3, 5, 10, 30, 0⟩ ∧
    parseDayFirstTS "not a date" = none ∧
    (agentRecordsOf (normalizeAgentFrame (buildFrame rowsC6ag))).map (fun r => r.timestamp) =
      [some ⟨2024, 3, 5, 10, 30, 0⟩, none] ∧
    total_calls (agentRecordsOf (normalizeAgentFrame (buildFrame rowsC6ag))) = 2 ∧
    (systemRecordsOf (load_system_logs_rows rowsC6sys)).map (fun r => r.timestamp) =
      [some ⟨2024, 5, 3, 10, 30, 0⟩] := by
  refine ⟨fun logs => ⟨?_, ?_, ?_⟩, by with_unfolding_all decide,
    by with_unfolding_all decide, by with_unfolding_all decide,
    by with_unfolding_all decide, by with_unfolding_all decide⟩
  · unfold hourly_counts
    congr 1
    funext h
    have hcount : (logs.filter (fun r => decide (r.timestamp.map TS.hour = some h))).length =
        ((logs.filter (fun r => decide (r.timestamp ≠ none))).filter
          (fun r => decide (r.timestamp.map TS.hour = some h))).length := by
      rw [List.filter_filter]
      congr 1
      apply List.filter_congr
      intro r _
      cases ht : r.timestamp
      · simp
      · simp
    rw [hcount]
  · intro d
    unfold dateFiltered
    rw [List.filter_filter]
    apply List.filter_congr
    intro r _
    cases ht : r.timestamp
    · simp
    · simp
  · have hB : logs.filter (fun r => decide (r.timestamp = none)) =
        logs.filter (fun r => !(decide (r.timestamp ≠ none))) := by
      apply List.filter_congr
      intro r _
      cases ht : r.timestamp
      · simp
      · simp
    rw [hB]
    exact (length_filter_partition _ logs).symm

/-- C7: a missing or unreadable optional source (System_Logs or either
recovery-queue worksheet) is replaced by an empty record set and the rest of
the load completes without an error being reported, whereas a failure to
fetch the mandatory Agent Log sheet (or the connection itself) is surfaced
as the cycle's error with every record set degraded to empty. -/
theorem C7_loader_resilience :
    (∀ (wb : Workbook) (rows : List (List String)) (af : Frame) (e : String),
      wb.conn = .ok () → wb.sheet1 = .ok rows → load_agent_logs rows = .ok af →
      wb.worksheet "System_Logs" = .error e →
        (load_all_data wb).errorMsg = none ∧ (load_all_data wb).system = [] ∧
        (load_all_data wb).agents = af) ∧
    (∀ (wb : Workbook) (rows : List (List String)) (af : Frame) (e : String),
      wb.conn = .ok () → wb.sheet1 = .ok rows → load_agent_logs rows = .ok af →
      wb.worksheet "Queue_MAjira" = .error e →
        (load_all_data wb).errorMsg = none ∧
        (load_all_data wb).queues = queueSheetEntries wb "Queue_General") ∧
    (∀ (wb : Workbook) (e : String),
      wb.conn = .ok () → wb.sheet1 = .error e →
      load_all_data wb = ⟨some e, [], [], []⟩) ∧
    (∀ (wb : Workbook) (e : String),
      wb.conn = .error e → load_all_data wb = ⟨some e, [], [], []⟩) := by
  refine ⟨?_, ?_, ?_, ?_⟩
  · intro wb rows af e h1 h2 h3 h4
    have hred : load_all_data wb =
        (match load_agent_logs rows with
          | Except.error e => (⟨some e, [], [], []⟩ : LoadResult)
          | Except.ok af => ⟨none, af, load_system_logs wb, load_recovery_queues wb⟩) := by
      unfold load_all_data
      rw [h1, h2]
    have hred2 : load_all_data wb =
        ⟨none, af, load_system_logs wb, load_recovery_queues wb⟩ := by
      rw [hred, h3]
    rw [hred2]
    refine ⟨rfl, ?_, rfl⟩
    show load_system_logs wb = []
    unfold load_system_logs
    rw [h4]
  · intro wb rows af e h1 h2 h3 h4
    have hred : load_all_data wb =
        (match load_agent_logs rows with
          | Except.error e => (⟨some e, [], [], []⟩ : LoadResult)
          | Except.ok af => ⟨none, af, load_system_logs wb, load_recovery_queues wb⟩) := by
      unfold load_all_data
      rw [h1, h2]
    have hred2 : load_all_data wb =
        ⟨none, af, load_system_logs wb, load_recovery_queues wb⟩ := by
      rw [hred, h3]
    rw [hred2]
    refine ⟨rfl, ?_⟩
    show load_recovery_queues wb = queueSheetEntries wb "Queue_General"
    unfold load_recovery_queues
    have hq : queueSheetEntries wb "Queue_MAjira" = [] := by
      unfold queueSheetEntries
      rw [h4]
    rw [hq, List.nil_append]
  · intro wb e h1 h2
    unfold load_all_data
    rw [h1, h2]
  · intro wb e h1
    unfold load_all_data
    rw [h1]

/-- C7 witness: the loader statements instantiated on a workbook whose
optional worksheets are all missing and on one whose mandatory sheet fails. -/
theorem C7_loader_resilience_witness :
    ((load_all_data wbC7).errorMsg = none ∧ (load_all_data wbC7).system = []) ∧
    load_all_data wbC7b = ⟨some "SpreadsheetNotFound", [], [], []⟩ :=
  ⟨⟨(C7_loader_resilience.1 wbC7 [["Timestamp"]] emptyAgentFrame "WorksheetNotFound"
      rfl rfl rfl rfl).1,
    (C7_loader_resilience.1 wbC7 [["Timestamp"]] emptyAgentFrame "WorksheetNotFound"
      rfl rfl rfl rfl).2.1⟩,
   C7_loader_resilience.2.2.1 wbC7b "SpreadsheetNotFound" rfl rfl⟩

/-! ### Structure of the normalized agent frame -/

theorem normalizeAgentFrame_eq (f : Frame) :
    normalizeAgentFrame f =
      applyDefaults (agentDefaults (agentFrameCore f)) (agentFrameCore f) := by
  simp only [normalizeAgentFrame, agentFrameCore, parsedTScol, getCol_setCol_self,
    Option.getD_some]

theorem mem_colNames_setCol_cases {f : Frame} {m n : String} {v : List Cell}
    (h : m ∈ colNames (setCol f n v)) : m = n ∨ m ∈ colNames f := by
  by_cases hm : n ∈ colNames f
  · rw [colNames_setCol_of_mem v hm] at h
    exact Or.inr h
  · rw [colNames_setCol_of_not_mem v hm] at h
    rcases List.mem_append.1 h with h | h
    · exact Or.inr h
    · simp at h
      exact Or.inl h

theorem mem_colNames_setCol_of_mem {f : Frame} {m : String} (n : String) (v : List Cell)
    (h : m ∈ colNames f) : m ∈ colNames (setCol f n v) := by
  by_cases hm : n ∈ colNames f
  · rw [colNames_setCol_of_mem v hm]
    exact h
  · rw [colNames_setCol_of_not_mem v hm]
    exact List.mem_append_left _ h

theorem getCol_core_ts (f : Frame) :
    getCol (agentFrameCore f) "Timestamp" = some (parsedTScol f) := by
  unfold agentFrameCore
  rw [getCol_setCol_ne _ _ (by decide), getCol_setCol_ne _ _ (by decide),
    getCol_setCol_self]

theorem getCol_core_date (f : Frame) :
    getCol (agentFrameCore f) "Date" = some ((parsedTScol f).map dateCellOf) := by
  unfold agentFrameCore
  rw [getCol_setCol_ne _ _ (by decide), getCol_setCol_self]

theorem getCol_core_hour (f : Frame) :
    getCol (agentFrameCore f) "Hour" = some ((parsedTScol f).map hourCellOf) := by
  unfold agentFrameCore
  rw [getCol_setCol_self]

theorem getCol_core_other (f : Frame) {m : String} (h1 : m ≠ "Timestamp")
    (h2 : m ≠ "Date") (h3 : m ≠ "Hour") :
    getCol (agentFrameCore f) m = getCol f m := by
  unfold agentFrameCore
  rw [getCol_setCol_ne _ _ h3, getCol_setCol_ne _ _ h2, getCol_setCol_ne _ _ h1]

theorem mem_colNames_core_cases {f : Frame} {m : String}
    (h : m ∈ colNames (agentFrameCore f)) :
    m = "Hour" ∨ m = "Date" ∨ m = "Timestamp" ∨ m ∈ colNames f := by
  unfold agentFrameCore at h
  rcases mem_colNames_setCol_cases h with h | h
  · exact Or.inl h
  · rcases mem_colNames_setCol_cases h with h | h
    · exact Or.inr (Or.inl h)
    · rcases mem_colNames_setCol_cases h with h | h
      · exact Or.inr (Or.inr (Or.inl h))
      · exact Or.inr (Or.inr (Or.inr h))

theorem mem_colNames_core_of_mem {f : Frame} {m : String} (h : m ∈ colNames f) :
    m ∈ colNames (agentFrameCore f) := by
  unfold agentFrameCore
  exact mem_colNames_setCol_of_mem _ _ (mem_colNames_setCol_of_mem _ _
    (mem_colNames_setCol_of_mem _ _ h))

theorem core_nodup {f : Frame} (h : (colNames f).Nodup) :
    (colNames (agentFrameCore f)).Nodup := by
  unfold agentFrameCore
  exact colNames_setCol_nodup _ (colNames_setCol_nodup _ (colNames_setCol_nodup _ h))

theorem core_ne_nil (f : Frame) : agentFrameCore f ≠ [] := by
  unfold agentFrameCore
  exact setCol_ne_nil _ _ _

theorem colNames_buildFrame (rows : List (List String)) :
    colNames (buildFrame rows) = trimmedHeader rows := by
  unfold buildFrame colNames trimmedHeader
  rw [List.map_map]
  have h : (Prod.fst ∘ fun p : Nat × String =>
      (p.2, rows.tail.map (fun r => Cell.str (r.getD p.1 "")))) =
      (Prod.snd : Nat × String → String) := rfl
  rw [h]
  exact List.enum_map_snd _

theorem agentDefaults_keys (f : Frame) :
    (agentDefaults f).map Prod.fst =
      ["Call Status", "Category", "Specific Reason", "Lead Status", "Skill",
       "County", "Source", "Agent Name"] := rfl

theorem keys_mem_colNames_applyDefaults (ds : List (String × List Cell)) (f : Frame) :
    ∀ n ∈ ds.map Prod.fst, n ∈ colNames (applyDefaults ds f) := by
  intro n hn
  rcases List.mem_map.1 hn with ⟨d, hd, he⟩
  rw [← he]
  exact mem_keys_applyDefaults hd

theorem toDatetimeCell_idem (b : Bool) (c : Cell) :
    toDatetimeCell true (toDatetimeCell b c) = toDatetimeCell b c := by
  cases c <;> rfl

theorem not_mem_core_of_not_header {rows : List (List String)} {m : String}
    (hm : m ∉ trimmedHeader rows) (h1 : m ≠ "Timestamp") (h2 : m ≠ "Date")
    (h3 : m ≠ "Hour") :
    m ∉ colNames (agentFrameCore (buildFrame rows)) := by
  intro hmem
  rcases mem_colNames_core_cases hmem with h | h | h | h
  · exact h3 h
  · exact h2 h
  · exact h1 h
  · rw [colNames_buildFrame] at h
    exact hm h

/-- C5 counterexample: with a header carrying Category but no Disposition,
the claimed chain would populate a Disposition column from Category, yet the
normalized output holds no Disposition column at all — the defaults table
never creates one. -/
theorem C5_disposition_counterexample :
    load_agent_logs rowsC5 = .ok (normalizeAgentFrame (buildFrame rowsC5)) ∧
    "Category" ∈ colNames (normalizeAgentFrame (buildFrame rowsC5)) ∧
    "Disposition" ∉ colNames (normalizeAgentFrame (buildFrame rowsC5)) := by
  refine ⟨by with_unfolding_all rfl, by with_unfolding_all decide,
    by with_unfolding_all decide⟩

/-- C5 (amended): the Category defaulting applies with first hit winning —
an absent Category column is populated from Disposition when Disposition is
present and otherwise with the literal General Inquiry (so a header
omitting both yields category General Inquiry on every record) — while an
absent Disposition column is never created by normalization. -/
theorem C5_category_defaulting (rows : List (List String)) (h1 : 1 < rows.length)
    (hT : "Timestamp" ∈ trimmedHeader rows) :
    load_agent_logs rows = .ok (normalizeAgentFrame (buildFrame rows)) ∧
    ("Category" ∉ trimmedHeader rows → "Disposition" ∉ trimmedHeader rows →
      ∀ r ∈ agentRecordsOf (normalizeAgentFrame (buildFrame rows)),
        r.category = "General Inquiry") ∧
    ("Category" ∉ trimmedHeader rows → "Disposition" ∈ trimmedHeader rows →
      getCol (normalizeAgentFrame (buildFrame rows)) "Category" =
        getCol (buildFrame rows) "Disposition") ∧
    ("Disposition" ∉ trimmedHeader rows →
      "Disposition" ∉ colNames (normalizeAgentFrame (buildFrame rows))) := by
  refine ⟨?_, ?_, ?_, ?_⟩
  · unfold load_agent_logs
    rw [if_neg (by omega), if_pos hT]
  · intro hC hD
    generalize hB : buildFrame rows = B
    have hCh : "Category" ∉ colNames B := by
      rw [← hB, colNames_buildFrame]
      exact hC
    have hDh : "Disposition" ∉ colNames B := by
      rw [← hB, colNames_buildFrame]
      exact hD
    intro r hr
    rw [normalizeAgentFrame_eq] at hr
    have hCc : "Category" ∉ colNames (agentFrameCore B) := by
      intro hmem
      rcases mem_colNames_core_cases hmem with h | h | h | h
      · exact absurd h (by decide)
      · exact absurd h (by decide)
      · exact absurd h (by decide)
      · exact hCh h
    have hDc : "Disposition" ∉ colNames (agentFrameCore B) := by
      intro hmem
      rcases mem_colNames_core_cases hmem with h | h | h | h
      · exact absurd h (by decide)
      · exact absurd h (by decide)
      · exact absurd h (by decide)
      · exact hDh h
    have hdef : getCol (agentFrameCore B) "Disposition" = none :=
      getCol_eq_none_of_not_mem hDc
    have hd : ("Category", List.replicate (nrows (agentFrameCore B))
        (Cell.str "General Inquiry")) ∈ agentDefaults (agentFrameCore B) := by
      unfold agentDefaults
      rw [hdef]
      exact List.mem_cons_of_mem _ (List.mem_cons_self _ _)
    have hkeys : ((agentDefaults (agentFrameCore B)).map Prod.fst).Nodup := by
      rw [agentDefaults_keys]
      decide
    have hcat := getCol_applyDefaults_missing2 hkeys hd hCc
    unfold agentRecordsOf at hr
    rcases List.mem_map.1 hr with ⟨i, hi, hrec⟩
    have hn : i < nrows (agentFrameCore B) := by
      rw [← nrows_applyDefaults (core_ne_nil B)]
      exact List.mem_range.1 hi
    have hfinal : cellStrAt (applyDefaults (agentDefaults (agentFrameCore B))
        (agentFrameCore B)) "Category" i = "General Inquiry" := by
      unfold cellStrAt getCell
      simp only [hcat, List.getElem?_replicate, if_pos hn]
    have hcg := congrArg AgentRec.category hrec
    dsimp only at hcg
    rw [hcg] at hfinal
    exact hfinal
  · intro hC hD
    generalize hB : buildFrame rows = B
    have hCh : "Category" ∉ colNames B := by
      rw [← hB, colNames_buildFrame]
      exact hC
    have hDh : "Disposition" ∈ colNames B := by
      rw [← hB, colNames_buildFrame]
      exact hD
    have hDcore : "Disposition" ∈ colNames (agentFrameCore B) :=
      mem_colNames_core_of_mem hDh
    obtain ⟨dcol, hdcol⟩ := exists_getCol_of_mem hDcore
    have hCc : "Category" ∉ colNames (agentFrameCore B) := by
      intro hmem
      rcases mem_colNames_core_cases hmem with h | h | h | h
      · exact absurd h (by decide)
      · exact absurd h (by decide)
      · exact absurd h (by decide)
      · exact hCh h
    have hd : ("Category", dcol) ∈ agentDefaults (agentFrameCore B) := by
      unfold agentDefaults
      rw [hdcol]
      exact List.mem_cons_of_mem _ (List.mem_cons_self _ _)
    have hkeys : ((agentDefaults (agentFrameCore B)).map Prod.fst).Nodup := by
      rw [agentDefaults_keys]
      decide
    have hback : getCol B "Disposition" = some dcol := by
      rw [← getCol_core_other B (by decide) (by decide) (by decide)]
      exact hdcol
    calc getCol (normalizeAgentFrame B) "Category"
        = getCol (applyDefaults (agentDefaults (agentFrameCore B)) (agentFrameCore B))
            "Category" := by rw [normalizeAgentFrame_eq]
      _ = some dcol := getCol_applyDefaults_missing2 hkeys hd hCc
      _ = getCol B "Disposition" := hback.symm
  · intro hD
    generalize hB : buildFrame rows = B
    have hDh : "Disposition" ∉ colNames B := by
      rw [← hB, colNames_buildFrame]
      exact hD
    rw [normalizeAgentFrame_eq]
    intro hmem
    rcases colNames_applyDefaults_sub hmem with h | h
    · rcases mem_colNames_core_cases h with h | h | h | h
      · exact absurd h (by decide)
      · exact absurd h (by decide)
      · exact absurd h (by decide)
      · exact hDh h
    · rw [agentDefaults_keys] at h
      revert h
      decide

/-- C5 witness: the amended defaulting statements instantiated on a header
with neither column, a header with Disposition only, and the concrete
record they produce. -/
theorem C5_category_defaulting_witness :
    recC5w.category = "General Inquiry" ∧
    getCol (normalizeAgentFrame (buildFrame rowsC5w2)) "Category" =
      getCol (buildFrame rowsC5w2) "Disposition" ∧
    "Disposition" ∉ colNames (normalizeAgentFrame (buildFrame rowsC5w1)) :=
  ⟨(C5_category_defaulting rowsC5w1 (by decide) (by with_unfolding_all decide)).2.1
      (by with_unfolding_all decide) (by with_unfolding_all decide) recC5w
      (by with_unfolding_all decide),
   (C5_category_defaulting rowsC5w2 (by decide) (by with_unfolding_all decide)).2.2.1
      (by with_unfolding_all decide) (by with_unfolding_all decide),
   (C5_category_defaulting rowsC5w1 (by decide) (by with_unfolding_all decide)).2.2.2
      (by with_unfolding_all decide)⟩

theorem normalizeAgentFrame_fixed {G : Frame} {pcol : List Cell}
    (hnd : (colNames G).Nodup)
    (hts : getCol G "Timestamp" = some pcol)
    (hpure : pcol.map (toDatetimeCell true) = pcol)
    (hdate : getCol G "Date" = some (pcol.map dateCellOf))
    (hhour : getCol G "Hour" = some (pcol.map hourCellOf))
    (hkeys : ∀ n ∈ (agentDefaults G).map Prod.fst, n ∈ colNames G) :
    normalizeAgentFrame G = G := by
  have hpg : parsedTScol G = pcol := by
    rw [show parsedTScol G =
      ((getCol G "Timestamp").getD []).map (toDatetimeCell true) from rfl]
    rw [hts, Option.getD_some, hpure]
  have hcore : agentFrameCore G = G := by
    unfold agentFrameCore
    rw [hpg, setCol_eq_self hnd hts, setCol_eq_self hnd hdate,
      setCol_eq_self hnd hhour]
  rw [normalizeAgentFrame_eq, hcore]
  exact applyDefaults_eq_self (fun d hd => hkeys d.1 (List.mem_map_of_mem _ hd))

/-- C9: normalization is idempotent — applying the Timestamp parse, the
Date/Hour derivations and the defaulting loop to an already-normalized frame
changes nothing, for any input frame carrying a Timestamp column with
distinct column labels (the domain on which the loader runs at all). -/
theorem C9_normalize_idempotent (f : Frame) (hT : "Timestamp" ∈ colNames f)
    (hnd : (colNames f).Nodup) :
    normalizeAgentFrame (normalizeAgentFrame f) = normalizeAgentFrame f := by
  have hTcore : "Timestamp" ∈ colNames (agentFrameCore f) := mem_colNames_core_of_mem hT
  have hg : normalizeAgentFrame f =
      applyDefaults (agentDefaults (agentFrameCore f)) (agentFrameCore f) :=
    normalizeAgentFrame_eq f
  have hgts : getCol (normalizeAgentFrame f) "Timestamp" = some (parsedTScol f) := by
    rw [hg, getCol_applyDefaults_of_mem hTcore, getCol_core_ts]
  have hD : "Date" ∈ colNames (agentFrameCore f) :=
    (getCol_isSome_iff _ _).1 (by rw [getCol_core_date]; rfl)
  have hgdate : getCol (normalizeAgentFrame f) "Date" =
      some ((parsedTScol f).map dateCellOf) := by
    rw [hg, getCol_applyDefaults_of_mem hD, getCol_core_date]
  have hH : "Hour" ∈ colNames (agentFrameCore f) :=
    (getCol_isSome_iff _ _).1 (by rw [getCol_core_hour]; rfl)
  have hghour : getCol (normalizeAgentFrame f) "Hour" =
      some ((parsedTScol f).map hourCellOf) := by
    rw [hg, getCol_applyDefaults_of_mem hH, getCol_core_hour]
  have hgnodup : (colNames (normalizeAgentFrame f)).Nodup := by
    rw [hg]
    exact colNames_applyDefaults_nodup (core_nodup hnd)
  have hidem : (parsedTScol f).map (toDatetimeCell true) = parsedTScol f := by
    rw [show parsedTScol f =
      ((getCol f "Timestamp").getD []).map (toDatetimeCell true) from rfl]
    rw [List.map_map]
    apply List.map_congr_left
    intro c _
    exact toDatetimeCell_idem true c
  have hkeys : ∀ n ∈ (agentDefaults (normalizeAgentFrame f)).map Prod.fst,
      n ∈ colNames (normalizeAgentFrame f) := by
    rw [agentDefaults_keys]
    have h2 := keys_mem_colNames_applyDefaults (agentDefaults (agentFrameCore f))
      (agentFrameCore f)
    rw [agentDefaults_keys] at h2
    rw [hg]
    exact h2
  exact normalizeAgentFrame_fixed hgnodup hgts hidem hgdate hghour hkeys

/-- C9 witness: idempotence instantiated on a concrete two-column frame. -/
theorem C9_normalize_idempotent_witness :
    normalizeAgentFrame (normalizeAgentFrame frameC9) = normalizeAgentFrame frameC9 :=
  C9_normalize_idempotent frameC9 (by decide) (by decide)
